import Mathlib

/-!
Verification development for the live ball-by-ball cricket scoring engine
(`src/innings.js` of the dugout repository).

The embedding models one inning of one match.  Player and team identifiers
are natural numbers.  The match configuration (balls per over, overs limit,
match status, the two rosters, and the run totals of all earlier innings of
the same match) is immutable while the inning runs, exactly as in the
source, where these values live on the `match` row and on sibling `inning`
rows that `recordBall` only reads.

Every definition below is translated from the current version of
`src/innings.js`:
  * `computeNextState`        — lines 1232–1269
  * `recordBall` (POST /:inningId/balls)            — lines 1530–1859
  * `selectBatsman` (POST /:inningId/select-batsman) — lines 1919–1935
  * `selectBowler` (POST /:inningId/select-bowler)   — lines 1939–1990
  * `startInning` (POST /)    — lines 738–774
-/

namespace Dugout

/-- `ballType` enumeration of the `Ball` model. -/
inductive BallType where
  | NORMAL
  | FREE_HIT
  | WIDE
  | NO_BALL
  | BYE
  | LEG_BYE
  | PENALTY
deriving DecidableEq, Repr

/-- The optional `wicket` descriptor of a delivery: `{ kind, playerId }`.
Both fields are optional in the request body.  `playerId` is the
`dismissedPlayerId` of the spec. -/
structure Wicket where
  kind : Option String
  playerId : Option Nat
deriving DecidableEq, Repr

/-- The request body of `recordBall`: `{ runs, ballType, wicket,
manualStrikeChange }` (shot metadata is persisted but never interpreted, so
it is omitted). -/
structure Delivery where
  runs : Nat
  ballType : BallType
  wicket : Option Wicket
  manualStrikeChange : Bool
deriving DecidableEq, Repr

/-- One row of the append-only `Ball` table, with the fields `recordBall`
writes and later code paths read. -/
structure Ball where
  overNumber : Nat
  ballInOver : Nat
  batsmanId : Nat
  bowlerId : Nat
  runs : Nat
  ballType : BallType
  wicketKind : Option String
  isFour : Bool
  isSix : Bool
  isWicket : Bool
deriving DecidableEq, Repr

/-- One row of `BattingEntry` (unique per `(inningId, playerId)`). -/
structure BattingEntry where
  playerId : Nat
  battingOrder : Nat
  runs : Nat
  ballsFaced : Nat
  fours : Nat
  sixes : Nat
  out : Bool
  dismissal : Option String
deriving DecidableEq, Repr

/-- One row of `BowlingEntry` (unique per `(inningId, playerId)`). -/
structure BowlingEntry where
  playerId : Nat
  balls : Nat
  overs : Nat
  runsConceded : Nat
  maidens : Nat
  wickets : Nat
deriving DecidableEq, Repr

/-- Match lifecycle status. -/
inductive MatchStatus where
  | SCHEDULED
  | LIVE
  | COMPLETED
  | ABANDONED
deriving DecidableEq, Repr

/-- The data `recordBall`/`selectBowler` read but never write: match
configuration, the two team rosters (lists of player ids; the JS code
obtains `battingTeamSize` as `teamMembership.count` and checks bowler
membership through `teamMembership.findFirst`), and the `runs` of every
inning of the match with a smaller `inningNumber` (the chase target data). -/
structure MatchConfig where
  ballsPerOver : Nat
  oversLimit : Nat
  status : MatchStatus
  battingRoster : List Nat
  bowlingRoster : List Nat
  prevInningsRuns : List Nat
deriving DecidableEq, Repr

/-- The mutable state of one inning: the `Inning` row fields written by the
engine plus the ball log and the two scorecard tables for that inning. -/
structure Inning where
  runs : Nat
  wickets : Nat
  overs : Nat
  strikerId : Option Nat
  nonStrikerId : Option Nat
  currentBowlerId : Option Nat
  balls : List Ball
  battingEntries : List BattingEntry
  bowlingEntries : List BowlingEntry
deriving DecidableEq, Repr

/-- Error outcomes of the HTTP handlers that the claims distinguish. -/
inductive ApiError where
  | matchNotLive
  | selectionPending
  | notAtOverBreak
  | notTeamMember
  | consecutiveOver
deriving DecidableEq, Repr

/-- `['NORMAL', 'FREE_HIT', 'BYE', 'LEG_BYE'].includes(b.ballType)` — the
legal-delivery test used throughout `innings.js`. -/
def isLegalBall (bt : BallType) : Bool :=
  bt = BallType.NORMAL || bt = BallType.FREE_HIT || bt = BallType.BYE || bt = BallType.LEG_BYE

/-- Number of legal deliveries in a ball log (`inning.balls.filter(...).length`). -/
def legalCount (balls : List Ball) : Nat :=
  (balls.filter (fun b => isLegalBall b.ballType)).length

/-- Result record of `computeNextState`. -/
structure NextState where
  nextStrikerId : Option Nat
  nextNonStrikerId : Option Nat
  addBall : Bool
  completesOver : Bool
deriving DecidableEq, Repr

/-- `computeNextState` (innings.js lines 1232–1269), written with the same
sequential swap structure as the source: parity swap for legal deliveries,
then the manual-override swap, then the end-of-over swap. -/
def computeNextState (runs : Nat) (ballType : BallType) (manualStrikeChange : Bool)
    (currentOverBalls ballsPerOver : Nat) (strikerId nonStrikerId : Option Nat) : NextState :=
  let addBall := isLegalBall ballType
  let p1 : Option Nat × Option Nat :=
    if addBall && runs % 2 = 1 then (nonStrikerId, strikerId) else (strikerId, nonStrikerId)
  let p2 : Option Nat × Option Nat :=
    if manualStrikeChange then (p1.2, p1.1) else p1
  let completesOver := addBall && (currentOverBalls + 1) % ballsPerOver = 0
  let p3 : Option Nat × Option Nat :=
    if completesOver then (p2.2, p2.1) else p2
  { nextStrikerId := p3.1, nextNonStrikerId := p3.2,
    addBall := addBall, completesOver := completesOver }

/-- `prisma.battingEntry.findFirst({ where: { inningId, playerId } })`. -/
def batFind (entries : List BattingEntry) (pid : Nat) : Option BattingEntry :=
  entries.find? (fun e => e.playerId = pid)

/-- `ballsFaced` shown for a player: the entry's value, 0 when the player
has no entry yet. -/
def batBallsFaced (entries : List BattingEntry) (pid : Nat) : Nat :=
  ((batFind entries pid).map (fun e => e.ballsFaced)).getD 0

/-- `prisma.bowlingEntry.findFirst({ where: { inningId, playerId } })`. -/
def bowlFind (entries : List BowlingEntry) (pid : Nat) : Option BowlingEntry :=
  entries.find? (fun e => e.playerId = pid)

/-- `runsConceded` credited to a bowler: the entry's value, 0 when the
bowler has no entry yet. -/
def bowlConceded (entries : List BowlingEntry) (pid : Nat) : Nat :=
  ((bowlFind entries pid).map (fun e => e.runsConceded)).getD 0

/-- The striker upsert of `recordBall` (innings.js lines 1673–1697): update
the existing row, or create one with `battingOrder = (max existing) + 1`. -/
def upsertBatting (entries : List BattingEntry) (pid runsToBatter : Nat) (faced : Bool)
    (fours sixes : Nat) : List BattingEntry :=
  match batFind entries pid with
  | some _ =>
      entries.map (fun e =>
        if e.playerId = pid then
          { e with runs := e.runs + runsToBatter,
                   ballsFaced := e.ballsFaced + (if faced then 1 else 0),
                   fours := e.fours + fours,
                   sixes := e.sixes + sixes }
        else e)
  | none =>
      entries ++ [{ playerId := pid,
                    battingOrder := (entries.foldl (fun m e => max m e.battingOrder) 0) + 1,
                    runs := runsToBatter,
                    ballsFaced := if faced then 1 else 0,
                    fours := fours, sixes := sixes,
                    out := false, dismissal := none }]

/-- The mark-out step of `recordBall` (innings.js lines 1700–1705): if an
entry exists for the dismissed player, set `out` and
`dismissal = wicket.kind || 'OUT'`; otherwise do nothing. -/
def markOut (entries : List BattingEntry) (pid : Nat) (kind : Option String) :
    List BattingEntry :=
  match batFind entries pid with
  | some _ =>
      entries.map (fun e =>
        if e.playerId = pid then { e with out := true, dismissal := some (kind.getD ("OUT")) }
        else e)
  | none => entries

/-- The bowler upsert of `recordBall` (innings.js lines 1708–1733). -/
def upsertBowling (entries : List BowlingEntry) (pid : Nat) (addBall : Bool)
    (ballsPerOver conceded : Nat) (wicketToBowler : Bool) : List BowlingEntry :=
  match bowlFind entries pid with
  | some _ =>
      entries.map (fun e =>
        if e.playerId = pid then
          { e with balls := e.balls + (if addBall then 1 else 0),
                   overs := (e.balls + (if addBall then 1 else 0)) / ballsPerOver,
                   runsConceded := e.runsConceded + conceded,
                   wickets := e.wickets + (if wicketToBowler then 1 else 0) }
        else e)
  | none =>
      entries ++ [{ playerId := pid,
                    balls := if addBall then 1 else 0,
                    overs := if addBall then 1 / ballsPerOver else 0,
                    runsConceded := conceded,
                    maidens := 0,
                    wickets := if wicketToBowler then 1 else 0 }]

/-- The body of `recordBall` (innings.js lines 1564–1859) after the guards
have passed: `s`, `ns`, `b` are the non-null striker, non-striker and
current bowler.  Returns the updated inning state and the `inningEnded`
flag of the response. -/
def recordBallCore (cfg : MatchConfig) (inn : Inning) (d : Delivery) (s ns b : Nat) :
    Inning × Bool :=
  let legalBallsSoFar := legalCount inn.balls
  let currentOverBalls := legalBallsSoFar % cfg.ballsPerOver
  let nst := computeNextState d.runs d.ballType d.manualStrikeChange currentOverBalls
    cfg.ballsPerOver (some s) (some ns)
  -- Totals update: extras add a fixed penalty of 1 on top of the reported runs
  let runsToAdd :=
    if d.ballType = BallType.WIDE ∨ d.ballType = BallType.NO_BALL ∨ d.ballType = BallType.PENALTY
    then d.runs + 1 else d.runs
  let newLegalBalls := legalBallsSoFar + (if nst.addBall then 1 else 0)
  let oversCompleted := newLegalBalls / cfg.ballsPerOver
  let newRuns := inn.runs + runsToAdd
  let newWickets := inn.wickets + (if d.wicket.isSome then 1 else 0)
  -- `prisma.ball.create`
  let isFour := (d.ballType = BallType.NORMAL ∨ d.ballType = BallType.FREE_HIT) ∧ d.runs = 4
  let isSix := (d.ballType = BallType.NORMAL ∨ d.ballType = BallType.FREE_HIT) ∧ d.runs = 6
  let newBall : Ball :=
    { overNumber := legalBallsSoFar / cfg.ballsPerOver + 1,
      ballInOver :=
        (let x := legalBallsSoFar % cfg.ballsPerOver + (if nst.addBall then 1 else 0);
         if x = 0 then 1 else x),
      batsmanId := s, bowlerId := b, runs := d.runs, ballType := d.ballType,
      wicketKind := d.wicket.bind (fun w => w.kind),
      isFour := isFour, isSix := isSix,
      isWicket := (d.wicket.bind (fun w => w.kind)).isSome }
  -- Slot update: a wicket with a player id clears the matching slot and
  -- suppresses the computed rotation; otherwise apply the rotation.
  let slots : Option Nat × Option Nat :=
    match d.wicket with
    | some w =>
        match w.playerId with
        | some pid =>
            if pid = s then (none, some ns)
            else if pid = ns then (some s, none)
            else (some s, some ns)
        | none => (nst.nextStrikerId, nst.nextNonStrikerId)
    | none => (nst.nextStrikerId, nst.nextNonStrikerId)
  let newBowler : Option Nat := if nst.completesOver then none else some b
  -- Auto end conditions, in source order
  let inningsBallsLimit := cfg.oversLimit * cfg.ballsPerOver
  let ended1 : Bool := if newLegalBalls ≥ inningsBallsLimit ∨ newWickets ≥ 10 then true else false
  let ended2 : Bool :=
    if ended1 then true
    else if cfg.prevInningsRuns.isEmpty then false
    else if cfg.prevInningsRuns.foldl max 0 < newRuns then true else false
  let inningEnded : Bool :=
    if ended2 then true
    else
      match d.wicket with
      | none => false
      | some _ =>
          let maxWicketsAllowed :=
            if cfg.battingRoster.length > 0 then min 10 cfg.battingRoster.length else 10
          if newWickets ≥ maxWicketsAllowed then true else false
  -- Scorecard updates
  let legalDeliveryFaced := nst.addBall && isLegalBall d.ballType
  let runsToBatter :=
    if d.ballType = BallType.NORMAL ∨ d.ballType = BallType.FREE_HIT then d.runs else 0
  let bat1 := upsertBatting inn.battingEntries s runsToBatter legalDeliveryFaced
    (if runsToBatter = 4 then 1 else 0) (if runsToBatter = 6 then 1 else 0)
  let bat2 :=
    match d.wicket with
    | some w =>
        match w.playerId with
        | some pid => markOut bat1 pid w.kind
        | none => bat1
    | none => bat1
  let concedeToBowler :=
    ¬ (d.ballType = BallType.BYE ∨ d.ballType = BallType.LEG_BYE ∨ d.ballType = BallType.PENALTY)
  let wicketToBowler : Bool :=
    match d.wicket with
    | some w =>
        match w.kind with
        | some k => k.toUpper ≠ "RUN_OUT"
        | none => false
    | none => false
  let bowl1 := upsertBowling inn.bowlingEntries b nst.addBall cfg.ballsPerOver
    (if concedeToBowler then runsToAdd else 0) wicketToBowler
  ({ runs := newRuns, wickets := newWickets, overs := oversCompleted,
     strikerId := slots.1, nonStrikerId := slots.2, currentBowlerId := newBowler,
     balls := inn.balls ++ [newBall],
     battingEntries := bat2, bowlingEntries := bowl1 }, inningEnded)

/-- `recordBall` with its guards (innings.js lines 1552–1562): the match
must be LIVE, and all three slots must be non-null, otherwise the call is
rejected (409 selection pending) before any write. -/
def recordBall (cfg : MatchConfig) (inn : Inning) (d : Delivery) :
    Except ApiError (Inning × Bool) :=
  if cfg.status ≠ MatchStatus.LIVE then Except.error ApiError.matchNotLive
  else
    match inn.strikerId, inn.nonStrikerId, inn.currentBowlerId with
    | some s, some ns, some b => Except.ok (recordBallCore cfg inn d s ns b)
    | _, _, _ => Except.error ApiError.selectionPending

/-- `selectBatsman` (innings.js lines 1919–1935): once the guards that do
not concern the inning state have passed (non-empty `strikerId`, authorised
caller, inning exists for the match), the handler unconditionally writes
the striker slot — there is no liveness, membership, occupancy or
already-dismissed check. -/
def selectBatsman (inn : Inning) (pid : Nat) : Except ApiError Inning :=
  Except.ok { inn with strikerId := some pid }

/-- The consecutive-over check data of `selectBowler` (innings.js lines
1969–1982): the bowler of the last-recorded ball of the previous over, when
there is one. -/
def prevOverBowler (cfg : MatchConfig) (inn : Inning) : Option Nat :=
  let legalBallsSoFar := legalCount inn.balls
  if legalBallsSoFar > 0 then
    let prevOverNumber := legalBallsSoFar / cfg.ballsPerOver
    if prevOverNumber > 0 then
      ((inn.balls.filter (fun bl => bl.overNumber = prevOverNumber)).getLast?).map
        (fun bl => bl.bowlerId)
    else none
  else none

/-- `selectBowler` (innings.js lines 1939–1990). -/
def selectBowler (cfg : MatchConfig) (inn : Inning) (pid : Nat) : Except ApiError Inning :=
  if cfg.status ≠ MatchStatus.LIVE then Except.error ApiError.matchNotLive
  else if inn.currentBowlerId.isSome then Except.error ApiError.notAtOverBreak
  else if ¬ (pid ∈ cfg.bowlingRoster) then Except.error ApiError.notTeamMember
  else if prevOverBowler cfg inn = some pid then Except.error ApiError.consecutiveOver
  else Except.ok { inn with currentBowlerId := some pid }

/-- `startInning` (innings.js lines 738–774): a fresh inning always starts
with all three slots supplied and non-null, and empty log and scorecards. -/
def startInning (strikerId nonStrikerId bowlerId : Nat) : Inning :=
  { runs := 0, wickets := 0, overs := 0,
    strikerId := some strikerId, nonStrikerId := some nonStrikerId,
    currentBowlerId := some bowlerId,
    balls := [], battingEntries := [], bowlingEntries := [] }

/-- The mutating operations a scorer can issue against a running inning. -/
inductive Op where
  | recordBall (d : Delivery)
  | selectBatsman (pid : Nat)
  | selectBowler (pid : Nat)
deriving DecidableEq, Repr

/-- One API call: a rejected call leaves the stored state unchanged (every
handler validates before its first write). -/
def applyOp (cfg : MatchConfig) (inn : Inning) (op : Op) : Inning :=
  match op with
  | Op.recordBall d =>
      match recordBall cfg inn d with
      | Except.ok r => r.1
      | Except.error _ => inn
  | Op.selectBatsman pid =>
      match selectBatsman inn pid with
      | Except.ok i => i
      | Except.error _ => inn
  | Op.selectBowler pid =>
      match selectBowler cfg inn pid with
      | Except.ok i => i
      | Except.error _ => inn

/-! ### Spec-side definitions

These two definitions follow the wording of the specification (§4.1 strike
rotation), to be compared with the behaviour of the source-derived
`computeNextState`/`recordBallCore`. -/

/-- Swap the two occupants when the condition holds. -/
def swapIf (b : Bool) (p : Option Nat × Option Nat) : Option Nat × Option Nat :=
  if b then (p.2, p.1) else p

/-- Spec wording: "this delivery completes an over" — the delivery is legal
and the legal-ball count becomes a multiple of `ballsPerOver`. -/
def specCompletesOver (cfg : MatchConfig) (inn : Inning) (d : Delivery) : Bool :=
  isLegalBall d.ballType && decide ((legalCount inn.balls + 1) % cfg.ballsPerOver = 0)

/-- Spec wording of the rotation: a swap if the delivery is legal and
`runs` is odd, then a swap if `manualStrikeChange` is set, then an
unconditional swap if the delivery completes an over — in that order. -/
def specRotation (cfg : MatchConfig) (inn : Inning) (d : Delivery) (s ns : Nat) :
    Option Nat × Option Nat :=
  swapIf (specCompletesOver cfg inn d)
    (swapIf d.manualStrikeChange
      (swapIf (isLegalBall d.ballType && decide (d.runs % 2 = 1)) (some s, some ns)))

/-! ### Helper lemmas -/

theorem legalCount_append (l : List Ball) (b : Ball) :
    legalCount (l ++ [b]) = legalCount l + (if isLegalBall b.ballType then 1 else 0) := by
  simp only [legalCount, List.filter_append]
  by_cases h : isLegalBall b.ballType = true <;> simp [h]

theorem batFind_eq_pid {es : List BattingEntry} {pid : Nat} {e : BattingEntry}
    (h : batFind es pid = some e) : e.playerId = pid := by
  have := List.find?_some h
  simpa using this

theorem bowlFind_eq_pid {es : List BowlingEntry} {pid : Nat} {e : BowlingEntry}
    (h : bowlFind es pid = some e) : e.playerId = pid := by
  have := List.find?_some h
  simpa using this

theorem batFind_map (g : BattingEntry → BattingEntry)
    (hg : ∀ e, (g e).playerId = e.playerId) (l : List BattingEntry) (pid : Nat) :
    batFind (l.map g) pid = (batFind l pid).map g := by
  induction l with
  | nil => rfl
  | cons a t ih =>
    simp only [List.map_cons, batFind, List.find?, hg a]
    by_cases h : a.playerId = pid
    · simp [h]
    · simp only [h, decide_False]
      exact ih

theorem batFind_append (l₁ l₂ : List BattingEntry) (pid : Nat) :
    batFind (l₁ ++ l₂) pid = ((batFind l₁ pid).orElse (fun _ => batFind l₂ pid)) := by
  induction l₁ with
  | nil => simp [batFind, Option.orElse]
  | cons a t ih =>
    simp only [List.cons_append, batFind, List.find?]
    by_cases h : a.playerId = pid
    · simp [h, Option.orElse]
    · simp only [h, decide_False]
      exact ih

theorem bowlFind_map (g : BowlingEntry → BowlingEntry)
    (hg : ∀ e, (g e).playerId = e.playerId) (l : List BowlingEntry) (pid : Nat) :
    bowlFind (l.map g) pid = (bowlFind l pid).map g := by
  induction l with
  | nil => rfl
  | cons a t ih =>
    simp only [List.map_cons, bowlFind, List.find?, hg a]
    by_cases h : a.playerId = pid
    · simp [h]
    · simp only [h, decide_False]
      exact ih

theorem bowlFind_append (l₁ l₂ : List BowlingEntry) (pid : Nat) :
    bowlFind (l₁ ++ l₂) pid = ((bowlFind l₁ pid).orElse (fun _ => bowlFind l₂ pid)) := by
  induction l₁ with
  | nil => simp [bowlFind, Option.orElse]
  | cons a t ih =>
    simp only [List.cons_append, bowlFind, List.find?]
    by_cases h : a.playerId = pid
    · simp [h, Option.orElse]
    · simp only [h, decide_False]
      exact ih

theorem batBallsFaced_upsert_not_faced (es : List BattingEntry) (pid r f4 s6 : Nat) :
    batBallsFaced (upsertBatting es pid r false f4 s6) pid = batBallsFaced es pid := by
  unfold upsertBatting
  cases h : batFind es pid with
  | some e =>
    simp only [batBallsFaced]
    rw [batFind_map _ (by intro e'; by_cases hh : e'.playerId = pid <;> simp [hh])]
    have hp := batFind_eq_pid h
    simp [h, hp]
  | none =>
    simp only [batBallsFaced]
    rw [batFind_append]
    simp only [batFind] at h
    simp [h, batFind, List.find?, Option.orElse]

theorem batFind_upsert_self_isSome (es : List BattingEntry) (pid r : Nat) (fc : Bool)
    (f4 s6 : Nat) : (batFind (upsertBatting es pid r fc f4 s6) pid).isSome = true := by
  unfold upsertBatting
  cases h : batFind es pid with
  | some e =>
    rw [batFind_map _ (by intro e'; by_cases hh : e'.playerId = pid <;> simp [hh])]
    simp [h]
  | none =>
    rw [batFind_append]
    simp only [batFind] at h
    simp [h, batFind, List.find?, Option.orElse]

theorem batFind_upsert_other (es : List BattingEntry) (pid q r : Nat) (fc : Bool)
    (f4 s6 : Nat) (hq : q ≠ pid) :
    batFind (upsertBatting es pid r fc f4 s6) q = batFind es q := by
  unfold upsertBatting
  cases h : batFind es pid with
  | some e =>
    rw [batFind_map _ (by intro e'; by_cases hh : e'.playerId = pid <;> simp [hh])]
    cases h2 : batFind es q with
    | none => rfl
    | some e2 =>
      have hp := batFind_eq_pid h2
      have : ¬ (e2.playerId = pid) := by rw [hp]; exact hq
      simp [this]
  | none =>
    rw [batFind_append]
    cases h2 : batFind es q with
    | some e2 => simp [h2, Option.orElse]
    | none => simp [h2, Option.orElse, batFind, List.find?, hq.symm]

theorem batFind_markOut_found (es : List BattingEntry) (pid : Nat) (k : Option String)
    (e : BattingEntry) (h : batFind es pid = some e) :
    batFind (markOut es pid k) pid
      = some { e with out := true, dismissal := some (k.getD ("OUT")) } := by
  unfold markOut
  simp only [h]
  rw [batFind_map _ (by intro e'; by_cases hh : e'.playerId = pid <;> simp [hh])]
  have hp := batFind_eq_pid h
  simp [h, hp]

theorem batFind_markOut_none (es : List BattingEntry) (pid : Nat) (k : Option String)
    (h : batFind es pid = none) : markOut es pid k = es := by
  unfold markOut
  simp [h]

theorem batBallsFaced_markOut (es : List BattingEntry) (pid q : Nat) (k : Option String) :
    batBallsFaced (markOut es pid k) q = batBallsFaced es q := by
  unfold markOut
  cases h : batFind es pid with
  | none => rfl
  | some e =>
    simp only [batBallsFaced]
    rw [batFind_map _ (by intro e'; by_cases hh : e'.playerId = pid <;> simp [hh])]
    cases h2 : batFind es q with
    | none => rfl
    | some e2 => by_cases hqq : e2.playerId = pid <;> simp [hqq]

theorem bowlConceded_upsert_self (es : List BowlingEntry) (pid : Nat) (add : Bool)
    (bpo conceded : Nat) (w : Bool) :
    bowlConceded (upsertBowling es pid add bpo conceded w) pid
      = bowlConceded es pid + conceded := by
  unfold upsertBowling
  cases h : bowlFind es pid with
  | some e =>
    simp only [bowlConceded]
    rw [bowlFind_map _ (by intro e'; by_cases hh : e'.playerId = pid <;> simp [hh])]
    have hp := bowlFind_eq_pid h
    simp [h, hp]
  | none =>
    simp only [bowlConceded]
    rw [bowlFind_append]
    simp only [bowlFind] at h
    simp [h, bowlFind, List.find?, Option.orElse]

theorem recordBall_ok_of_guards (cfg : MatchConfig) (inn : Inning) (d : Delivery)
    (s ns b : Nat) (hlive : cfg.status = MatchStatus.LIVE)
    (hs : inn.strikerId = some s) (hns : inn.nonStrikerId = some ns)
    (hb : inn.currentBowlerId = some b) :
    recordBall cfg inn d = Except.ok (recordBallCore cfg inn d s ns b) := by
  unfold recordBall
  simp [hlive, hs, hns, hb]

theorem recordBall_not_ok_of_slot_none (cfg : MatchConfig) (inn : Inning) (d : Delivery)
    (h : inn.strikerId = none ∨ inn.nonStrikerId = none ∨ inn.currentBowlerId = none) :
    ∀ r, ¬ (recordBall cfg inn d = Except.ok r) := by
  intro r hok
  unfold recordBall at hok
  by_cases hlive : cfg.status = MatchStatus.LIVE
  · simp only [hlive] at hok
    cases hst : inn.strikerId <;> cases hns : inn.nonStrikerId <;>
      cases hb : inn.currentBowlerId <;> simp_all
  · simp [hlive] at hok

theorem selectBowler_ok (cfg : MatchConfig) (inn : Inning) (p : Nat) (i : Inning)
    (h : selectBowler cfg inn p = Except.ok i) :
    i = { inn with currentBowlerId := some p } := by
  unfold selectBowler at h
  split at h
  · exact absurd h (by simp)
  · split at h
    · exact absurd h (by simp)
    · split at h
      · exact absurd h (by simp)
      · split at h
        · exact absurd h (by simp)
        · simpa using h.symm

theorem recordBallCore_wickets (cfg : MatchConfig) (inn : Inning) (d : Delivery)
    (s ns b : Nat) :
    (recordBallCore cfg inn d s ns b).1.wickets
      = inn.wickets + (if d.wicket.isSome then 1 else 0) := rfl

theorem strikerId_none_applyOp (cfg : MatchConfig) (inn : Inning) (op : Op)
    (h : inn.strikerId = none) (hop : ∀ p, op ≠ Op.selectBatsman p) :
    (applyOp cfg inn op).strikerId = none := by
  cases op with
  | recordBall d =>
    cases hrec : recordBall cfg inn d with
    | ok r => exact absurd hrec (recordBall_not_ok_of_slot_none cfg inn d (Or.inl h) r)
    | error e => simp only [applyOp, hrec]; exact h
  | selectBatsman p => exact absurd rfl (hop p)
  | selectBowler p =>
    cases hsb : selectBowler cfg inn p with
    | ok i =>
      simp only [applyOp, hsb]
      rw [selectBowler_ok cfg inn p i hsb]
      exact h
    | error e => simp only [applyOp, hsb]; exact h

theorem bowlerId_none_applyOp (cfg : MatchConfig) (inn : Inning) (op : Op)
    (h : inn.currentBowlerId = none) (hop : ∀ p, op ≠ Op.selectBowler p) :
    (applyOp cfg inn op).currentBowlerId = none := by
  cases op with
  | recordBall d =>
    cases hrec : recordBall cfg inn d with
    | ok r => exact absurd hrec (recordBall_not_ok_of_slot_none cfg inn d (Or.inr (Or.inr h)) r)
    | error e => simp only [applyOp, hrec]; exact h
  | selectBatsman p =>
    simp only [applyOp, selectBatsman]
    exact h
  | selectBowler p => exact absurd rfl (hop p)

theorem applyOp_recordBall_error (cfg : MatchConfig) (inn : Inning) (d : Delivery)
    (e : ApiError) (h : recordBall cfg inn d = Except.error e) :
    applyOp cfg inn (Op.recordBall d) = inn := by
  simp only [applyOp, h]

theorem applyOp_selectBowler_error (cfg : MatchConfig) (inn : Inning) (p : Nat)
    (e : ApiError) (h : selectBowler cfg inn p = Except.error e) :
    applyOp cfg inn (Op.selectBowler p) = inn := by
  simp only [applyOp, h]

theorem strikerId_none_foldl (cfg : MatchConfig) (ops : List Op) :
    ∀ inn : Inning, inn.strikerId = none →
    (∀ op ∈ ops, ∀ p, op ≠ Op.selectBatsman p) →
    (ops.foldl (applyOp cfg) inn).strikerId = none := by
  induction ops with
  | nil => intro inn h _; exact h
  | cons op rest ih =>
    intro inn h hops
    simp only [List.foldl_cons]
    exact ih (applyOp cfg inn op)
      (strikerId_none_applyOp cfg inn op h (hops op (List.mem_cons_self op rest)))
      (fun o ho p => hops o (List.mem_cons_of_mem op ho) p)

theorem bowlerId_none_foldl (cfg : MatchConfig) (ops : List Op) :
    ∀ inn : Inning, inn.currentBowlerId = none →
    (∀ op ∈ ops, ∀ p, op ≠ Op.selectBowler p) →
    (ops.foldl (applyOp cfg) inn).currentBowlerId = none := by
  induction ops with
  | nil => intro inn h _; exact h
  | cons op rest ih =>
    intro inn h hops
    simp only [List.foldl_cons]
    exact ih (applyOp cfg inn op)
      (bowlerId_none_applyOp cfg inn op h (hops op (List.mem_cons_self op rest)))
      (fun o ho p => hops o (List.mem_cons_of_mem op ho) p)

theorem recordBall_selectionPending_of_striker_none (cfg : MatchConfig) (inn : Inning)
    (d : Delivery) (hlive : cfg.status = MatchStatus.LIVE) (h : inn.strikerId = none) :
    recordBall cfg inn d = Except.error ApiError.selectionPending := by
  unfold recordBall
  simp only [hlive]
  cases hns : inn.nonStrikerId <;> cases hb : inn.currentBowlerId <;> simp_all

theorem recordBall_selectionPending_of_bowler_none (cfg : MatchConfig) (inn : Inning)
    (d : Delivery) (hlive : cfg.status = MatchStatus.LIVE) (h : inn.currentBowlerId = none) :
    recordBall cfg inn d = Except.error ApiError.selectionPending := by
  unfold recordBall
  simp only [hlive]
  cases hns : inn.nonStrikerId <;> cases hs : inn.strikerId <;> simp_all

theorem computeNextState_completesOver_spec (cfg : MatchConfig) (inn : Inning)
    (d : Delivery) (s ns : Option Nat) :
    (computeNextState d.runs d.ballType d.manualStrikeChange
        (legalCount inn.balls % cfg.ballsPerOver) cfg.ballsPerOver s ns).completesOver
      = specCompletesOver cfg inn d := by
  simp only [computeNextState, specCompletesOver, Nat.mod_add_mod]

/-! ### Shared concrete fixtures for the witnesses -/

/-- A live match: 6 balls per over, 20 overs, batting roster of 11, bowling
roster of 2, first innings. -/
def wCfg : MatchConfig :=
  { ballsPerOver := 6, oversLimit := 20, status := MatchStatus.LIVE,
    battingRoster := [1, 2, 4, 5, 6, 7, 8, 9, 10, 11, 12],
    bowlingRoster := [3, 13], prevInningsRuns := [] }

/-- A freshly started inning: striker 1, non-striker 2, bowler 3. -/
def wInn : Inning := startInning 1 2 3

/-- A plain single off a normal delivery. -/
def wSingle : Delivery :=
  { runs := 1, ballType := BallType.NORMAL, wicket := none, manualStrikeChange := false }

/-- Claim C1: for every recorded delivery on an inning with all three slots
filled and no wicket reported, the striker/non-striker slots after the ball
are obtained from the slots before it by applying, in this order: a swap if
the delivery is legal and `runs` is odd; then a swap if `manualStrikeChange`
is set (independent of parity); then an unconditional swap if the delivery
completes an over (legal-ball count becomes a multiple of `ballsPerOver`). -/
theorem strike_rotation_order (cfg : MatchConfig) (inn : Inning) (d : Delivery)
    (s ns b : Nat) (hlive : cfg.status = MatchStatus.LIVE)
    (hs : inn.strikerId = some s) (hns : inn.nonStrikerId = some ns)
    (hb : inn.currentBowlerId = some b) (hw : d.wicket = none) :
    recordBall cfg inn d = Except.ok (recordBallCore cfg inn d s ns b) ∧
    ((recordBallCore cfg inn d s ns b).1.strikerId,
     (recordBallCore cfg inn d s ns b).1.nonStrikerId)
      = specRotation cfg inn d s ns := by
  refine ⟨recordBall_ok_of_guards cfg inn d s ns b hlive hs hns hb, ?_⟩
  simp only [recordBallCore, hw, computeNextState, specRotation, swapIf,
    specCompletesOver, Nat.mod_add_mod]

/-- Witness for C1: a single off the first ball of a fresh inning. -/
theorem strike_rotation_order_witness :
    recordBall wCfg wInn wSingle = Except.ok (recordBallCore wCfg wInn wSingle 1 2 3) ∧
    ((recordBallCore wCfg wInn wSingle 1 2 3).1.strikerId,
     (recordBallCore wCfg wInn wSingle 1 2 3).1.nonStrikerId)
      = specRotation wCfg wInn wSingle 1 2 :=
  strike_rotation_order wCfg wInn wSingle 1 2 3 rfl rfl rfl rfl rfl

theorem recordBallCore_runs (cfg : MatchConfig) (inn : Inning) (d : Delivery)
    (s ns b : Nat) :
    (recordBallCore cfg inn d s ns b).1.runs
      = inn.runs +
        (if d.ballType = BallType.WIDE ∨ d.ballType = BallType.NO_BALL ∨
            d.ballType = BallType.PENALTY
         then d.runs + 1 else d.runs) := rfl

theorem recordBallCore_legalCount (cfg : MatchConfig) (inn : Inning) (d : Delivery)
    (s ns b : Nat) :
    legalCount (recordBallCore cfg inn d s ns b).1.balls
      = legalCount inn.balls + (if isLegalBall d.ballType then 1 else 0) := by
  simp only [recordBallCore]
  rw [legalCount_append]

theorem recordBallCore_batBallsFaced_not_legal (cfg : MatchConfig) (inn : Inning)
    (d : Delivery) (s ns b : Nat) (hnl : isLegalBall d.ballType = false) :
    batBallsFaced (recordBallCore cfg inn d s ns b).1.battingEntries s
      = batBallsFaced inn.battingEntries s := by
  simp only [recordBallCore, computeNextState]
  cases hw : d.wicket with
  | none =>
    simp only [hw, hnl, Bool.false_and]
    exact batBallsFaced_upsert_not_faced inn.battingEntries s _ _ _
  | some w =>
    cases hwp : w.playerId with
    | none =>
      simp only [hw, hwp, hnl, Bool.false_and]
      exact batBallsFaced_upsert_not_faced inn.battingEntries s _ _ _
    | some pid =>
      simp only [hw, hwp, hnl, Bool.false_and]
      rw [batBallsFaced_markOut]
      exact batBallsFaced_upsert_not_faced inn.battingEntries s _ _ _

/-- A wide with no reported runs. -/
def wWide : Delivery :=
  { runs := 0, ballType := BallType.WIDE, wicket := none, manualStrikeChange := false }

/-- Claim C2: for every delivery, the legal-ball counter of the inning
advances by exactly one iff `ballType` is one of NORMAL, FREE_HIT, BYE,
LEG_BYE; for every delivery with `ballType` WIDE, NO_BALL or PENALTY, the
legal-ball counter is unchanged and the striker's `ballsFaced` is
unchanged. -/
theorem legal_ball_counter (cfg : MatchConfig) (inn : Inning) (d : Delivery)
    (s ns b : Nat) (hlive : cfg.status = MatchStatus.LIVE)
    (hs : inn.strikerId = some s) (hns : inn.nonStrikerId = some ns)
    (hb : inn.currentBowlerId = some b) :
    recordBall cfg inn d = Except.ok (recordBallCore cfg inn d s ns b) ∧
    (legalCount (recordBallCore cfg inn d s ns b).1.balls = legalCount inn.balls + 1 ↔
      (d.ballType = BallType.NORMAL ∨ d.ballType = BallType.FREE_HIT ∨
       d.ballType = BallType.BYE ∨ d.ballType = BallType.LEG_BYE)) ∧
    ((d.ballType = BallType.WIDE ∨ d.ballType = BallType.NO_BALL ∨
      d.ballType = BallType.PENALTY) →
      legalCount (recordBallCore cfg inn d s ns b).1.balls = legalCount inn.balls ∧
      batBallsFaced (recordBallCore cfg inn d s ns b).1.battingEntries s
        = batBallsFaced inn.battingEntries s) := by
  refine ⟨recordBall_ok_of_guards cfg inn d s ns b hlive hs hns hb, ?_, ?_⟩
  · rw [recordBallCore_legalCount]
    cases hbt : d.ballType <;> simp [hbt, isLegalBall]
  · intro hbt
    have hnl : isLegalBall d.ballType = false := by
      rcases hbt with h | h | h <;> simp [h, isLegalBall]
    refine ⟨?_, recordBallCore_batBallsFaced_not_legal cfg inn d s ns b hnl⟩
    rw [recordBallCore_legalCount, hnl]
    simp

/-- Witness for C2: a wide off the first ball of a fresh inning. -/
theorem legal_ball_counter_witness :
    recordBall wCfg wInn wWide = Except.ok (recordBallCore wCfg wInn wWide 1 2 3) ∧
    (legalCount (recordBallCore wCfg wInn wWide 1 2 3).1.balls = legalCount wInn.balls + 1 ↔
      (wWide.ballType = BallType.NORMAL ∨ wWide.ballType = BallType.FREE_HIT ∨
       wWide.ballType = BallType.BYE ∨ wWide.ballType = BallType.LEG_BYE)) ∧
    ((wWide.ballType = BallType.WIDE ∨ wWide.ballType = BallType.NO_BALL ∨
      wWide.ballType = BallType.PENALTY) →
      legalCount (recordBallCore wCfg wInn wWide 1 2 3).1.balls = legalCount wInn.balls ∧
      batBallsFaced (recordBallCore wCfg wInn wWide 1 2 3).1.battingEntries 1
        = batBallsFaced wInn.battingEntries 1) :=
  legal_ball_counter wCfg wInn wWide 1 2 3 rfl rfl rfl rfl

theorem batFind_markOut_upsert_self (es : List BattingEntry) (pid r : Nat) (fc : Bool)
    (f4 s6 : Nat) (k : Option String) :
    ∃ e, batFind (markOut (upsertBatting es pid r fc f4 s6) pid k) pid = some e ∧
      e.out = true ∧ e.dismissal = some (k.getD ("OUT")) := by
  obtain ⟨e1, he1⟩ := Option.isSome_iff_exists.mp (batFind_upsert_self_isSome es pid r fc f4 s6)
  exact ⟨_, batFind_markOut_found _ pid k e1 he1, rfl, rfl⟩

theorem batFind_markOut_upsert_other (es : List BattingEntry) (spid pid r : Nat) (fc : Bool)
    (f4 s6 : Nat) (k : Option String) (hne : pid ≠ spid)
    (hsome : (batFind es pid).isSome = true) :
    ∃ e, batFind (markOut (upsertBatting es spid r fc f4 s6) pid k) pid = some e ∧
      e.out = true ∧ e.dismissal = some (k.getD ("OUT")) := by
  obtain ⟨e1, he1⟩ := Option.isSome_iff_exists.mp hsome
  have h2 : batFind (upsertBatting es spid r fc f4 s6) pid = some e1 := by
    rw [batFind_upsert_other es spid pid r fc f4 s6 hne]
    exact he1
  exact ⟨_, batFind_markOut_found _ pid k e1 h2, rfl, rfl⟩

/-- A bowled striker (player 1) on a wide delivery. -/
def wWicketBall : Delivery :=
  { runs := 0, ballType := BallType.WIDE,
    wicket := some { kind := some ("BOWLED"), playerId := some 1 },
    manualStrikeChange := false }

/-- Claim C3: for every `recordBall` call carrying a wicket descriptor, the
innings wicket count increments by exactly one regardless of `ballType`
(including WIDE), and if the wicket's `dismissedPlayerId` equals the
current striker (respectively non-striker), that slot is set to null
instead of receiving the computed rotation outcome, with the dismissed
player's batting entry marked out with the dismissal kind.  (The striker's
entry always exists after the call; a dismissed non-striker is marked on
their existing entry — the code creates no entry for a non-striker who
never faced a delivery.) -/
theorem wicket_handling (cfg : MatchConfig) (inn : Inning) (d : Delivery) (s ns b : Nat)
    (w : Wicket) (hlive : cfg.status = MatchStatus.LIVE)
    (hs : inn.strikerId = some s) (hns : inn.nonStrikerId = some ns)
    (hb : inn.currentBowlerId = some b) (hw : d.wicket = some w) :
    recordBall cfg inn d = Except.ok (recordBallCore cfg inn d s ns b) ∧
    (recordBallCore cfg inn d s ns b).1.wickets = inn.wickets + 1 ∧
    (w.playerId = some s →
      (recordBallCore cfg inn d s ns b).1.strikerId = none ∧
      (recordBallCore cfg inn d s ns b).1.nonStrikerId = some ns ∧
      ∃ e, batFind (recordBallCore cfg inn d s ns b).1.battingEntries s = some e ∧
        e.out = true ∧ e.dismissal = some (w.kind.getD ("OUT"))) ∧
    (∀ pid, w.playerId = some pid → pid ≠ s → pid = ns →
      (recordBallCore cfg inn d s ns b).1.nonStrikerId = none ∧
      (recordBallCore cfg inn d s ns b).1.strikerId = some s ∧
      ((batFind inn.battingEntries pid).isSome = true →
        ∃ e, batFind (recordBallCore cfg inn d s ns b).1.battingEntries pid = some e ∧
          e.out = true ∧ e.dismissal = some (w.kind.getD ("OUT")))) := by
  refine ⟨recordBall_ok_of_guards cfg inn d s ns b hlive hs hns hb, ?_, ?_, ?_⟩
  · rw [recordBallCore_wickets]
    simp [hw]
  · intro hps
    refine ⟨?_, ?_, ?_⟩
    · simp [recordBallCore, hw, hps]
    · simp [recordBallCore, hw, hps]
    · simp only [recordBallCore, hw, hps]
      exact batFind_markOut_upsert_self inn.battingEntries s _ _ _ _ w.kind
  · intro pid hps hne hins
    subst hins
    refine ⟨?_, ?_, ?_⟩
    · simp [recordBallCore, hw, hps, hne]
    · simp [recordBallCore, hw, hps, hne]
    · intro hsome
      simp only [recordBallCore, hw, hps]
      exact batFind_markOut_upsert_other inn.battingEntries s pid _ _ _ _ w.kind hne hsome

/-- Witness for C3: striker 1 bowled on a wide — the wicket still counts,
the striker slot clears, the non-striker stays, and the entry is marked. -/
theorem wicket_handling_witness :
    recordBall wCfg wInn wWicketBall
      = Except.ok (recordBallCore wCfg wInn wWicketBall 1 2 3) ∧
    (recordBallCore wCfg wInn wWicketBall 1 2 3).1.wickets = wInn.wickets + 1 ∧
    (recordBallCore wCfg wInn wWicketBall 1 2 3).1.strikerId = none ∧
    (recordBallCore wCfg wInn wWicketBall 1 2 3).1.nonStrikerId = some 2 ∧
    ∃ e, batFind (recordBallCore wCfg wInn wWicketBall 1 2 3).1.battingEntries 1 = some e ∧
      e.out = true ∧ e.dismissal = some ("BOWLED") := by
  have h := wicket_handling wCfg wInn wWicketBall 1 2 3
    { kind := some ("BOWLED"), playerId := some 1 } rfl rfl rfl rfl rfl
  obtain ⟨h1, h2, h3, _⟩ := h
  obtain ⟨h3a, h3b, h3c⟩ := h3 rfl
  exact ⟨h1, h2, h3a, h3b, by simpa using h3c⟩

theorem recordBallCore_ended (cfg : MatchConfig) (inn : Inning) (d : Delivery)
    (s ns b : Nat) :
    (recordBallCore cfg inn d s ns b).2 =
      (if (if (if legalCount inn.balls + (if isLegalBall d.ballType then 1 else 0) ≥
                  cfg.oversLimit * cfg.ballsPerOver ∨
                inn.wickets + (if d.wicket.isSome then 1 else 0) ≥ 10
              then true else false)
          then true
          else if cfg.prevInningsRuns.isEmpty then false
          else if cfg.prevInningsRuns.foldl max 0 <
              inn.runs + (if d.ballType = BallType.WIDE ∨ d.ballType = BallType.NO_BALL ∨
                d.ballType = BallType.PENALTY then d.runs + 1 else d.runs)
          then true else false)
       then true
       else
         match d.wicket with
         | none => false
         | some _ =>
             if inn.wickets + (if d.wicket.isSome then 1 else 0) ≥
                 (if cfg.battingRoster.length > 0 then min 10 cfg.battingRoster.length else 10)
             then true else false) := rfl

set_option maxHeartbeats 1000000 in
/-- Claim C4: `recordBall` reports the inning as ended iff, after applying
the delivery: the legal-ball count reaches `oversLimit × ballsPerOver`, or
the wicket count reaches `min(10, batting team roster size)`, or — for a
second-or-later inning — the team total strictly exceeds the maximum total
of all earlier innings.  "Reaches" is read from a state that has not
already passed the wicket bound (`inn.wickets < min 10 rosterSize`), i.e.
from any state in which the inning is not already over on wickets. -/
theorem inning_end_conditions (cfg : MatchConfig) (inn : Inning) (d : Delivery)
    (s ns b : Nat) (hlive : cfg.status = MatchStatus.LIVE)
    (hs : inn.strikerId = some s) (hns : inn.nonStrikerId = some ns)
    (hb : inn.currentBowlerId = some b)
    (hwlt : inn.wickets < min 10 cfg.battingRoster.length) :
    recordBall cfg inn d = Except.ok (recordBallCore cfg inn d s ns b) ∧
    ((recordBallCore cfg inn d s ns b).2 = true ↔
      (legalCount (recordBallCore cfg inn d s ns b).1.balls ≥
          cfg.oversLimit * cfg.ballsPerOver ∨
       (recordBallCore cfg inn d s ns b).1.wickets ≥ min 10 cfg.battingRoster.length ∨
       (cfg.prevInningsRuns ≠ [] ∧
        (recordBallCore cfg inn d s ns b).1.runs > cfg.prevInningsRuns.foldl max 0))) := by
  refine ⟨recordBall_ok_of_guards cfg inn d s ns b hlive hs hns hb, ?_⟩
  have hm10 : min 10 cfg.battingRoster.length ≤ 10 := min_le_left _ _
  have hmpos : 0 < min 10 cfg.battingRoster.length := lt_of_le_of_lt (Nat.zero_le _) hwlt
  have hlen : 0 < cfg.battingRoster.length := (lt_min_iff.mp hmpos).2
  rw [recordBallCore_ended, recordBallCore_legalCount, recordBallCore_wickets,
    recordBallCore_runs]
  by_cases hpe : cfg.prevInningsRuns = []
  · cases hwk : d.wicket with
    | none =>
      simp only [hwk, Option.isSome_none, hpe, List.isEmpty_nil, ne_eq, not_true_eq_false,
        false_and, or_false]
      split_ifs with h1 h2 <;> simp_all <;> omega
    | some w =>
      simp only [hwk, Option.isSome_some, hpe, List.isEmpty_nil, ne_eq, not_true_eq_false,
        false_and, or_false]
      split_ifs with h1 h2 h3 <;> simp_all <;> omega
  · have hpe2 : cfg.prevInningsRuns.isEmpty = false := by
      cases hl : cfg.prevInningsRuns with
      | nil => exact absurd hl hpe
      | cons a t => rfl
    cases hwk : d.wicket with
    | none =>
      simp only [hwk, Option.isSome_none, hpe, hpe2, ne_eq, not_false_eq_true, true_and]
      split_ifs with h1 h2 <;> simp_all <;> omega
    | some w =>
      simp only [hwk, Option.isSome_some, hpe, hpe2, ne_eq, not_false_eq_true, true_and]
      split_ifs with h1 h2 h3 <;> simp_all <;> omega

/-- Second innings chasing a first-innings total of 150, currently at 150. -/
def wCfgChase : MatchConfig :=
  { ballsPerOver := 6, oversLimit := 20, status := MatchStatus.LIVE,
    battingRoster := [3, 13], bowlingRoster := [1, 2], prevInningsRuns := [150] }

/-- The chasing inning at 150 runs, no wicket down. -/
def wInnChase : Inning :=
  { runs := 150, wickets := 0, overs := 0, strikerId := some 3, nonStrikerId := some 13,
    currentBowlerId := some 1, balls := [], battingEntries := [], bowlingEntries := [] }

/-- Witness for C4: a single takes the chasing side from 150 to 151 past a
first-innings total of 150, and the ball is reported as ending the inning. -/
theorem inning_end_conditions_witness :
    (recordBall wCfgChase wInnChase wSingle
        = Except.ok (recordBallCore wCfgChase wInnChase wSingle 3 13 1) ∧
      ((recordBallCore wCfgChase wInnChase wSingle 3 13 1).2 = true ↔
        (legalCount (recordBallCore wCfgChase wInnChase wSingle 3 13 1).1.balls ≥
            wCfgChase.oversLimit * wCfgChase.ballsPerOver ∨
         (recordBallCore wCfgChase wInnChase wSingle 3 13 1).1.wickets ≥
            min 10 wCfgChase.battingRoster.length ∨
         (wCfgChase.prevInningsRuns ≠ [] ∧
          (recordBallCore wCfgChase wInnChase wSingle 3 13 1).1.runs >
            wCfgChase.prevInningsRuns.foldl max 0)))) ∧
    (recordBallCore wCfgChase wInnChase wSingle 3 13 1).2 = true :=
  ⟨inning_end_conditions wCfgChase wInnChase wSingle 3 13 1 rfl rfl rfl rfl (by decide),
   by decide⟩

theorem recordBallCore_bowlConceded (cfg : MatchConfig) (inn : Inning) (d : Delivery)
    (s ns b : Nat) :
    bowlConceded (recordBallCore cfg inn d s ns b).1.bowlingEntries b
      = bowlConceded inn.bowlingEntries b +
        (if ¬ (d.ballType = BallType.BYE ∨ d.ballType = BallType.LEG_BYE ∨
               d.ballType = BallType.PENALTY)
         then (if d.ballType = BallType.WIDE ∨ d.ballType = BallType.NO_BALL ∨
               d.ballType = BallType.PENALTY then d.runs + 1 else d.runs)
         else 0) := by
  simp only [recordBallCore]
  exact bowlConceded_upsert_self inn.bowlingEntries b _ cfg.ballsPerOver _ _

/-- A penalty with no reported runs. -/
def wPenalty : Delivery :=
  { runs := 0, ballType := BallType.PENALTY, wicket := none, manualStrikeChange := false }

/-- Counterexample to C5 as stated: a PENALTY delivery with `runs = 0` adds
1 run to the team total, but the bowler's conceded runs are unchanged — the
added run is NOT credited to the bowler (the code excludes PENALTY from
`concedeToBowler`). -/
theorem penalty_not_conceded_counterexample :
    recordBall wCfg wInn wPenalty = Except.ok (recordBallCore wCfg wInn wPenalty 1 2 3) ∧
    (recordBallCore wCfg wInn wPenalty 1 2 3).1.runs = wInn.runs + 1 ∧
    bowlConceded (recordBallCore wCfg wInn wPenalty 1 2 3).1.bowlingEntries 3
      = bowlConceded wInn.bowlingEntries 3 ∧
    ¬ (bowlConceded (recordBallCore wCfg wInn wPenalty 1 2 3).1.bowlingEntries 3
        = bowlConceded wInn.bowlingEntries 3 + 1) :=
  ⟨recordBall_ok_of_guards wCfg wInn wPenalty 1 2 3 rfl rfl rfl rfl,
   by decide, by decide, by decide⟩

/-- Claim C5 (amended): for every delivery with `ballType` WIDE, NO_BALL or
PENALTY, at least 1 run (the reported runs plus a fixed penalty of 1) is
added to the team total even when the reported runs is 0; for WIDE and
NO_BALL the runs added to the team total are also credited to the current
bowler as conceded runs, but for PENALTY nothing is credited to the
bowler. -/
theorem extras_run_attribution (cfg : MatchConfig) (inn : Inning) (d : Delivery)
    (s ns b : Nat) (hlive : cfg.status = MatchStatus.LIVE)
    (hs : inn.strikerId = some s) (hns : inn.nonStrikerId = some ns)
    (hb : inn.currentBowlerId = some b)
    (hbt : d.ballType = BallType.WIDE ∨ d.ballType = BallType.NO_BALL ∨
           d.ballType = BallType.PENALTY) :
    recordBall cfg inn d = Except.ok (recordBallCore cfg inn d s ns b) ∧
    (recordBallCore cfg inn d s ns b).1.runs = inn.runs + d.runs + 1 ∧
    ((d.ballType = BallType.WIDE ∨ d.ballType = BallType.NO_BALL) →
      bowlConceded (recordBallCore cfg inn d s ns b).1.bowlingEntries b
        = bowlConceded inn.bowlingEntries b + (d.runs + 1)) ∧
    (d.ballType = BallType.PENALTY →
      bowlConceded (recordBallCore cfg inn d s ns b).1.bowlingEntries b
        = bowlConceded inn.bowlingEntries b) := by
  refine ⟨recordBall_ok_of_guards cfg inn d s ns b hlive hs hns hb, ?_, ?_, ?_⟩
  · rw [recordBallCore_runs, if_pos hbt]
    omega
  · intro hwn
    rw [recordBallCore_bowlConceded]
    rcases hwn with h | h <;> simp [h]
  · intro hp
    rw [recordBallCore_bowlConceded]
    simp [hp]

/-- Witness for the amended C5: a wide with no reported runs concedes
exactly the 1 penalty run to the bowler, and the penalty case of the
amended claim at the same state. -/
theorem extras_run_attribution_witness :
    (recordBall wCfg wInn wWide = Except.ok (recordBallCore wCfg wInn wWide 1 2 3) ∧
     (recordBallCore wCfg wInn wWide 1 2 3).1.runs = wInn.runs + wWide.runs + 1 ∧
     ((wWide.ballType = BallType.WIDE ∨ wWide.ballType = BallType.NO_BALL) →
       bowlConceded (recordBallCore wCfg wInn wWide 1 2 3).1.bowlingEntries 3
         = bowlConceded wInn.bowlingEntries 3 + (wWide.runs + 1)) ∧
     (wWide.ballType = BallType.PENALTY →
       bowlConceded (recordBallCore wCfg wInn wWide 1 2 3).1.bowlingEntries 3
         = bowlConceded wInn.bowlingEntries 3)) :=
  extras_run_attribution wCfg wInn wWide 1 2 3 rfl rfl rfl rfl (by decide)

/-- Claim C6: if any of the striker, non-striker or current-bowler slots is
null, `recordBall` fails with the selection-pending conflict and is a
no-op; and once the striker slot is null, every subsequent `recordBall`
fails this way, whatever other non-`selectBatsman` operations are issued
in between, until `selectBatsman` is called. -/
theorem selection_pending_guard (cfg : MatchConfig) (inn : Inning) (d : Delivery)
    (hlive : cfg.status = MatchStatus.LIVE)
    (h : inn.strikerId = none ∨ inn.nonStrikerId = none ∨ inn.currentBowlerId = none) :
    recordBall cfg inn d = Except.error ApiError.selectionPending ∧
    applyOp cfg inn (Op.recordBall d) = inn ∧
    (inn.strikerId = none →
      ∀ ops : List Op, (∀ op ∈ ops, ∀ p, op ≠ Op.selectBatsman p) →
      ∀ d2 : Delivery,
        recordBall cfg (ops.foldl (applyOp cfg) inn) d2
          = Except.error ApiError.selectionPending) := by
  have herr : recordBall cfg inn d = Except.error ApiError.selectionPending := by
    unfold recordBall
    simp only [hlive]
    rcases h with h | h | h <;>
      cases hst : inn.strikerId <;> cases hns : inn.nonStrikerId <;>
        cases hb : inn.currentBowlerId <;> simp_all
  refine ⟨herr, applyOp_recordBall_error cfg inn d _ herr, ?_⟩
  intro hsn ops hops d2
  exact recordBall_selectionPending_of_striker_none cfg _ d2 hlive
    (strikerId_none_foldl cfg ops inn hsn hops)

/-- Witness for C6: after striker 1 is bowled, the striker slot is null and
`recordBall` is rejected as selection-pending and changes nothing, both
immediately and after a further rejected ball and a bowler selection. -/
theorem selection_pending_guard_witness :
    recordBall wCfg (recordBallCore wCfg wInn wWicketBall 1 2 3).1 wSingle
      = Except.error ApiError.selectionPending ∧
    applyOp wCfg (recordBallCore wCfg wInn wWicketBall 1 2 3).1 (Op.recordBall wSingle)
      = (recordBallCore wCfg wInn wWicketBall 1 2 3).1 ∧
    recordBall wCfg
        ([Op.recordBall wSingle, Op.selectBowler 13].foldl (applyOp wCfg)
          (recordBallCore wCfg wInn wWicketBall 1 2 3).1) wSingle
      = Except.error ApiError.selectionPending := by
  have h := selection_pending_guard wCfg (recordBallCore wCfg wInn wWicketBall 1 2 3).1
    wSingle rfl (Or.inl (by decide))
  refine ⟨h.1, h.2.1, ?_⟩
  exact h.2.2 (by decide) [Op.recordBall wSingle, Op.selectBowler 13]
    (by intro op hop p; fin_cases hop <;> simp) wSingle

theorem recordBallCore_bowler (cfg : MatchConfig) (inn : Inning) (d : Delivery)
    (s ns b : Nat) :
    (recordBallCore cfg inn d s ns b).1.currentBowlerId
      = (if specCompletesOver cfg inn d then none else some b) := by
  have h := computeNextState_completesOver_spec cfg inn d (some s) (some ns)
  simp only [recordBallCore, h]

/-- Claim C7: after every delivery that completes an over, the inning's
`currentBowlerId` is null, and from that state no `recordBall` call
succeeds (each attempt is rejected without recording a ball) until a
bowler is reselected via `selectBowler`. -/
theorem over_completion_clears_bowler (cfg : MatchConfig) (inn : Inning) (d : Delivery)
    (s ns b : Nat) (hlive : cfg.status = MatchStatus.LIVE)
    (hs : inn.strikerId = some s) (hns : inn.nonStrikerId = some ns)
    (hb : inn.currentBowlerId = some b)
    (hc : specCompletesOver cfg inn d = true) :
    recordBall cfg inn d = Except.ok (recordBallCore cfg inn d s ns b) ∧
    (recordBallCore cfg inn d s ns b).1.currentBowlerId = none ∧
    (∀ ops : List Op, (∀ op ∈ ops, ∀ p, op ≠ Op.selectBowler p) →
      ∀ d2 : Delivery,
        recordBall cfg (ops.foldl (applyOp cfg) (recordBallCore cfg inn d s ns b).1) d2
          = Except.error ApiError.selectionPending) := by
  have hbn : (recordBallCore cfg inn d s ns b).1.currentBowlerId = none := by
    rw [recordBallCore_bowler, hc]
    rfl
  refine ⟨recordBall_ok_of_guards cfg inn d s ns b hlive hs hns hb, hbn, ?_⟩
  intro ops hops d2
  exact recordBall_selectionPending_of_bowler_none cfg _ d2 hlive
    (bowlerId_none_foldl cfg ops _ hbn hops)

/-- The inning after five singles of the first over. -/
def wInn5 : Inning := (List.replicate 5 (Op.recordBall wSingle)).foldl (applyOp wCfg) wInn

/-- Witness for C7: the sixth legal ball of the over clears the bowler slot
and the next delivery is rejected until a bowler is selected. -/
theorem over_completion_clears_bowler_witness :
    recordBall wCfg wInn5 wSingle = Except.ok (recordBallCore wCfg wInn5 wSingle 2 1 3) ∧
    (recordBallCore wCfg wInn5 wSingle 2 1 3).1.currentBowlerId = none ∧
    recordBall wCfg
        (([Op.selectBatsman 4] : List Op).foldl (applyOp wCfg)
          (recordBallCore wCfg wInn5 wSingle 2 1 3).1) wSingle
      = Except.error ApiError.selectionPending := by
  have h := over_completion_clears_bowler wCfg wInn5 wSingle 2 1 3 rfl (by decide)
    (by decide) (by decide) (by decide)
  exact ⟨h.1, h.2.1,
    h.2.2 [Op.selectBatsman 4] (by intro op hop p; fin_cases hop; simp) wSingle⟩

/-- Claim C8: `selectBowler` fails without changing state whenever
`currentBowlerId` is non-null (not at an over break), or the proposed
bowler is not a member of the bowling team roster, or the proposed bowler
bowled the immediately preceding over (read off the last recorded ball of
that over); in particular the bowler of over N is rejected for over N+1
with a state-conflict error. -/
theorem selectBowler_rejections (cfg : MatchConfig) (inn : Inning) (pid : Nat)
    (hlive : cfg.status = MatchStatus.LIVE)
    (h : inn.currentBowlerId ≠ none ∨ pid ∉ cfg.bowlingRoster ∨
         prevOverBowler cfg inn = some pid) :
    applyOp cfg inn (Op.selectBowler pid) = inn ∧
    (inn.currentBowlerId ≠ none →
      selectBowler cfg inn pid = Except.error ApiError.notAtOverBreak) ∧
    (inn.currentBowlerId = none → pid ∉ cfg.bowlingRoster →
      selectBowler cfg inn pid = Except.error ApiError.notTeamMember) ∧
    (inn.currentBowlerId = none → pid ∈ cfg.bowlingRoster →
      prevOverBowler cfg inn = some pid →
      selectBowler cfg inn pid = Except.error ApiError.consecutiveOver) := by
  have h1 : inn.currentBowlerId ≠ none →
      selectBowler cfg inn pid = Except.error ApiError.notAtOverBreak := by
    intro hh
    unfold selectBowler
    simp [hlive, Option.ne_none_iff_isSome.mp hh]
  have h2 : inn.currentBowlerId = none → pid ∉ cfg.bowlingRoster →
      selectBowler cfg inn pid = Except.error ApiError.notTeamMember := by
    intro hbn hmem
    unfold selectBowler
    simp [hlive, hbn, hmem]
  have h3 : inn.currentBowlerId = none → pid ∈ cfg.bowlingRoster →
      prevOverBowler cfg inn = some pid →
      selectBowler cfg inn pid = Except.error ApiError.consecutiveOver := by
    intro hbn hmem hprev
    unfold selectBowler
    simp [hlive, hbn, hmem, hprev]
  have herr : ∃ e, selectBowler cfg inn pid = Except.error e := by
    by_cases hbn : inn.currentBowlerId = none
    · rcases h with h | h | h
      · exact absurd hbn h
      · exact ⟨_, h2 hbn h⟩
      · by_cases hmem : pid ∈ cfg.bowlingRoster
        · exact ⟨_, h3 hbn hmem h⟩
        · exact ⟨_, h2 hbn hmem⟩
    · exact ⟨_, h1 hbn⟩
  obtain ⟨e, he⟩ := herr
  exact ⟨applyOp_selectBowler_error cfg inn pid e he, h1, h2, h3⟩

/-- The inning after a full first over of six singles (bowler 3). -/
def wInn6 : Inning := (List.replicate 6 (Op.recordBall wSingle)).foldl (applyOp wCfg) wInn

/-- Witness for C8: bowler 3, who bowled over 1, is rejected for over 2
with the consecutive-over conflict, and the state is unchanged. -/
theorem selectBowler_rejections_witness :
    applyOp wCfg wInn6 (Op.selectBowler 3) = wInn6 ∧
    selectBowler wCfg wInn6 3 = Except.error ApiError.consecutiveOver := by
  have h := selectBowler_rejections wCfg wInn6 3 rfl (Or.inr (Or.inr (by decide)))
  exact ⟨h.1, h.2.2.2 (by decide) (by decide) (by decide)⟩

theorem recordBall_ok_shape (cfg : MatchConfig) (inn : Inning) (d : Delivery)
    (r : Inning × Bool) (h : recordBall cfg inn d = Except.ok r) :
    ∃ s ns b, inn.strikerId = some s ∧ inn.nonStrikerId = some ns ∧
      inn.currentBowlerId = some b ∧ r = recordBallCore cfg inn d s ns b := by
  unfold recordBall at h
  split at h
  · exact absurd h (by simp)
  · cases hst : inn.strikerId <;> rw [hst] at h
    case none => simp at h
    case some s =>
      cases hns : inn.nonStrikerId <;> rw [hns] at h
      case none => simp at h
      case some ns =>
        cases hb : inn.currentBowlerId <;> rw [hb] at h
        case none => simp at h
        case some b =>
          simp only [Except.ok.injEq] at h
          exact ⟨s, ns, b, rfl, rfl, rfl, h.symm⟩

/-- A reported wicket naming a player occupying neither crease slot (the
handler performs no validation of `dismissedPlayerId`). -/
def wGhostWicket : Delivery :=
  { runs := 0, ballType := BallType.NORMAL,
    wicket := some { kind := none, playerId := some 99 },
    manualStrikeChange := false }

/-- A live match whose batting roster has only two players. -/
def wCfgSmall : MatchConfig :=
  { ballsPerOver := 6, oversLimit := 100, status := MatchStatus.LIVE,
    battingRoster := [1, 2], bowlingRoster := [3, 13], prevInningsRuns := [] }

/-- Counterexample to C9 as stated: with a batting roster of 2, three
recorded wickets naming a player outside the crease leave both slots
filled, so nothing stops further balls once the inning has been reported
ended — the wicket count reaches 3 > min(10, 2). -/
theorem wickets_exceed_roster_counterexample :
    ((List.replicate 3 (Op.recordBall wGhostWicket)).foldl (applyOp wCfgSmall)
        (startInning 1 2 3)).wickets = 3 ∧
    ¬ (((List.replicate 3 (Op.recordBall wGhostWicket)).foldl (applyOp wCfgSmall)
        (startInning 1 2 3)).wickets ≤ min 10 wCfgSmall.battingRoster.length) := by
  decide

/-- Boolean trace condition: every `recordBall` of the sequence is issued
from a state whose wicket count is still below `min(10, rosterSize)`,
i.e. the scorer stops recording once the inning is over on wickets. -/
def wicketsRespectful (cfg : MatchConfig) : Inning → List Op → Bool
  | _, [] => true
  | inn, op :: rest =>
      (match op with
       | Op.recordBall _ => decide (inn.wickets < min 10 cfg.battingRoster.length)
       | _ => true) && wicketsRespectful cfg (applyOp cfg inn op) rest

/-- Claim C9 (amended): the recorded wicket count never exceeds
`min(10, batting team roster size)` over any sequence of `startInning`,
`recordBall`, `selectBatsman` and `selectBowler` operations in which every
`recordBall` is issued before the wicket bound has been reached; without
that proviso the bound can be exceeded, because innings termination is
reported but never enforced (see the counterexample). -/
theorem wickets_bounded (cfg : MatchConfig) (ops : List Op) (inn : Inning)
    (h0 : inn.wickets ≤ min 10 cfg.battingRoster.length)
    (h1 : wicketsRespectful cfg inn ops = true) :
    (ops.foldl (applyOp cfg) inn).wickets ≤ min 10 cfg.battingRoster.length := by
  induction ops generalizing inn with
  | nil => exact h0
  | cons op rest ih =>
    simp only [List.foldl_cons]
    simp only [wicketsRespectful, Bool.and_eq_true] at h1
    refine ih (applyOp cfg inn op) ?_ h1.2
    cases op with
    | recordBall d =>
      have hlt : inn.wickets < min 10 cfg.battingRoster.length := by
        have h2 := h1.1
        simpa using h2
      cases hrec : recordBall cfg inn d with
      | error e =>
        rw [applyOp_recordBall_error cfg inn d e hrec]
        omega
      | ok r =>
        simp only [applyOp, hrec]
        obtain ⟨s, ns, b, _, _, _, hr⟩ := recordBall_ok_shape cfg inn d r hrec
        rw [hr, recordBallCore_wickets]
        have hle : (if d.wicket.isSome then 1 else 0) ≤ 1 := by split <;> omega
        omega
    | selectBatsman p => exact h0
    | selectBowler p =>
      cases hsb : selectBowler cfg inn p with
      | error e => simp only [applyOp, hsb]; exact h0
      | ok i =>
        simp only [applyOp, hsb]
        rw [selectBowler_ok cfg inn p i hsb]
        exact h0

/-- Witness for the amended C9: two wickets on a roster of two stay within
the bound when scoring stops at the bound. -/
theorem wickets_bounded_witness :
    ((List.replicate 2 (Op.recordBall wGhostWicket)).foldl (applyOp wCfgSmall)
        (startInning 1 2 3)).wickets ≤ min 10 wCfgSmall.battingRoster.length :=
  wickets_bounded wCfgSmall (List.replicate 2 (Op.recordBall wGhostWicket))
    (startInning 1 2 3) (by decide) (by decide)

/-- Claim C10: `selectBatsman` succeeds for any non-empty `strikerId`
whenever the inning exists for the match and the caller is authorized: it
unconditionally overwrites the striker slot even when that slot is
currently occupied, and performs no check that the player belongs to the
batting team roster or has not already been dismissed — here stated for an
occupied slot, a player outside the roster whose batting entry is already
marked out. -/
theorem selectBatsman_unconditional (cfg : MatchConfig) (inn : Inning) (pid q : Nat)
    (e : BattingEntry) (_hocc : inn.strikerId = some q)
    (_hmem : pid ∉ cfg.battingRoster)
    (_hout : batFind inn.battingEntries pid = some e) (_he : e.out = true) :
    selectBatsman inn pid = Except.ok { inn with strikerId := some pid } ∧
    (applyOp cfg inn (Op.selectBatsman pid)).strikerId = some pid :=
  ⟨rfl, rfl⟩

/-- A dismissed batting entry for player 99. -/
def wOutEntry : BattingEntry :=
  { playerId := 99, battingOrder := 1, runs := 5, ballsFaced := 4, fours := 1, sixes := 0,
    out := true, dismissal := some ("BOWLED") }

/-- An inning whose striker slot is occupied and whose scorecard already
has player 99 marked out. -/
def wInnOcc : Inning :=
  { runs := 5, wickets := 1, overs := 0, strikerId := some 1, nonStrikerId := some 2,
    currentBowlerId := some 3, balls := [], battingEntries := [wOutEntry],
    bowlingEntries := [] }

/-- Witness for C10: the dismissed, non-roster player 99 replaces the
occupied striker slot without any rejection. -/
theorem selectBatsman_unconditional_witness :
    selectBatsman wInnOcc 99 = Except.ok { wInnOcc with strikerId := some 99 } ∧
    (applyOp wCfg wInnOcc (Op.selectBatsman 99)).strikerId = some 99 :=
  selectBatsman_unconditional wCfg wInnOcc 99 1 wOutEntry rfl (by decide) (by decide) rfl
